import Mathlib

/-!
# dog-api-grpc: upstream adapter and request translator

A shallow embedding of `internal/dogclient/client.go` (the upstream adapter)
and `internal/server/server.go` (the request translator).

* The outside world is a function from the requested URL to the outcome of
  `httpClient.Get`, `io.ReadAll` and `json.Unmarshal`, which are library code.
* Every operation returns, next to its result, the list of strings it passed to
  `httpClient.Get`, in order, as recorded by `Client.Get`. No call means no request;
  a call that `Get` refuses before sending (`notRefused`) sends no request either.
* Go maps are association lists written through `GoMap.set` and read
  through `GoMap.get`; a decoded JSON object has pairwise distinct keys.
-/

namespace DogApi

set_option linter.dupNamespace false

/-- Equality of Go results `(value, error)` is decidable when it is on both sides. -/
instance instDecidableEqExcept {ε α : Type} [DecidableEq ε] [DecidableEq α] :
    DecidableEq (Except ε α)
  | .error a, .error b => if h : a = b then isTrue (by rw [h]) else isFalse (by simp [h])
  | .ok a, .ok b => if h : a = b then isTrue (by rw [h]) else isFalse (by simp [h])
  | .error _, .ok _ => isFalse (by simp)
  | .ok _, .error _ => isFalse (by simp)

/-! ## Decoded JSON values (`interface{}` after `json.Unmarshal`) -/

/-- The dynamic values `encoding/json` stores in an `interface{}`: `nil`, `bool`,
`float64` (kept as its literal text), `string`, `[]interface{}` and
`map[string]interface{}`. -/
inductive JValue where
  | null : JValue
  | bool (b : Bool) : JValue
  | num (literal : String) : JValue
  | str (s : String) : JValue
  | arr (elems : List JValue) : JValue
  | obj (members : List (String × JValue)) : JValue

/-- The struct `APIResponse` of client.go; an absent `message` decodes to `nil`. -/
structure APIResponse where
  Status : String
  Message : JValue

/-- What `io.ReadAll` followed by `json.Unmarshal` gives for a response body. -/
inductive Body where
  | readFailed (err : String) : Body
  | unmarshalFailed (err : String) : Body
  | decoded (apiResp : APIResponse) : Body

/-- What `httpClient.Get` gives for a URL. -/
inductive HttpOutcome where
  | getFailed (err : String) : HttpOutcome
  | response (StatusCode : Int) (body : Body) : HttpOutcome

/-- The constant `baseURL` of client.go. -/
def baseURL : String := "https://dog.ceo/api"

/-- The constant `http.StatusOK`. -/
def StatusOK : Int := 200

/-- The verb `%d` of `fmt` on an integer. -/
def fmtD (n : Int) : String := toString n

/-- The struct `Client` of client.go: its HTTP client, seen as the outcome of a GET per URL. -/
structure Client where
  httpClient : String → HttpOutcome

/-- The URLs handed to `httpClient.Get`, oldest first. -/
abbrev Calls := List String

/-- The call `c.httpClient.Get(url)` of client.go: it is recorded with the string it is given
and answered by the HTTP client. -/
def Client.Get (c : Client) (url : String) : Calls × HttpOutcome :=
  ([url], c.httpClient url)

/-- The method `Client.doRequest` of client.go; its calls are those of `Client.Get`. -/
def Client.doRequest (c : Client) (url : String) : Calls × Except String APIResponse :=
  match c.Get url with
  | (calls, .getFailed err) => (calls, .error ("failed to make request: " ++ err))
  | (calls, .response StatusCode body) =>
    if StatusCode ≠ StatusOK then
      (calls, .error ("unexpected status code: " ++ fmtD StatusCode))
    else
      match body with
      | .readFailed err => (calls, .error ("failed to read response body: " ++ err))
      | .unmarshalFailed err => (calls, .error ("failed to unmarshal response: " ++ err))
      | .decoded apiResp =>
        if apiResp.Status ≠ "success" then
          (calls, .error ("api returned error status: " ++ apiResp.Status))
        else
          (calls, .ok apiResp)

/-- The loop `for _, x := range list { if s, ok := x.(string); ok { out = append(out, s) } }`
that every list-returning method of client.go runs over the message. -/
def appendStrings (list : List JValue) : List String :=
  list.foldl (fun out x => match x with
    | .str s => out ++ [s]
    | _ => out) []

/-! ## Go maps -/

/-- A Go `map[string]α`, as the list of its entries. -/
abbrev GoMap (α : Type) := List (String × α)

/-- The read `m[k]` with its presence flag. -/
def GoMap.get {α : Type} (m : GoMap α) (k : String) : Option α :=
  match m with
  | [] => none
  | (k', v) :: rest => if k' = k then some v else GoMap.get rest k

/-- The write `m[k] = v`: the entry of `k` is replaced when there is one, added otherwise. -/
def GoMap.set {α : Type} (m : GoMap α) (k : String) (v : α) : GoMap α :=
  match m with
  | [] => [(k, v)]
  | (k', v') :: rest => if k' = k then (k, v) :: rest else (k', v') :: GoMap.set rest k v

/-- The keys of a map. -/
def GoMap.keys {α : Type} (m : GoMap α) : List String := m.map Prod.fst

/-! ## The upstream adapter (client.go) -/

/-- The method `Client.ListAllBreeds` of client.go. -/
def Client.ListAllBreeds (c : Client) : Calls × Except String (GoMap (List String)) :=
  let url := baseURL ++ "/breeds/list/all"
  match c.doRequest url with
  | (calls, .error err) => (calls, .error err)
  | (calls, .ok resp) =>
    match resp.Message with
    | .obj messageMap =>
      (calls, .ok (messageMap.foldl (fun breeds entry =>
        match entry.2 with
        | .arr subBreedsList => GoMap.set breeds entry.1 (appendStrings subBreedsList)
        | _ => breeds) []))
    | _ => (calls, .error "unexpected message format")

/-- The method `Client.ListBreeds` of client.go. -/
def Client.ListBreeds (c : Client) : Calls × Except String (List String) :=
  let url := baseURL ++ "/breeds/list"
  match c.doRequest url with
  | (calls, .error err) => (calls, .error err)
  | (calls, .ok resp) =>
    match resp.Message with
    | .arr breedsList => (calls, .ok (appendStrings breedsList))
    | _ => (calls, .error "unexpected message format")

/-- The method `Client.GetRandomImage` of client.go. -/
def Client.GetRandomImage (c : Client) : Calls × Except String String :=
  let url := baseURL ++ "/breeds/image/random"
  match c.doRequest url with
  | (calls, .error err) => (calls, .error err)
  | (calls, .ok resp) =>
    match resp.Message with
    | .str imageURL => (calls, .ok imageURL)
    | _ => (calls, .error "unexpected message format")

/-- The method `Client.GetRandomImages` of client.go. -/
def Client.GetRandomImages (c : Client) (count : Int) : Calls × Except String (List String) :=
  let url := baseURL ++ "/breeds/image/random/" ++ fmtD count
  match c.doRequest url with
  | (calls, .error err) => (calls, .error err)
  | (calls, .ok resp) =>
    match resp.Message with
    | .arr imagesList => (calls, .ok (appendStrings imagesList))
    | _ => (calls, .error "unexpected message format")

/-- The method `Client.GetBreedImages` of client.go. -/
def Client.GetBreedImages (c : Client) (breed : String) : Calls × Except String (List String) :=
  let url := baseURL ++ "/breed/" ++ breed ++ "/images"
  match c.doRequest url with
  | (calls, .error err) => (calls, .error err)
  | (calls, .ok resp) =>
    match resp.Message with
    | .arr imagesList => (calls, .ok (appendStrings imagesList))
    | _ => (calls, .error "unexpected message format")

/-- The method `Client.GetRandomBreedImage` of client.go. -/
def Client.GetRandomBreedImage (c : Client) (breed : String) : Calls × Except String String :=
  let url := baseURL ++ "/breed/" ++ breed ++ "/images/random"
  match c.doRequest url with
  | (calls, .error err) => (calls, .error err)
  | (calls, .ok resp) =>
    match resp.Message with
    | .str imageURL => (calls, .ok imageURL)
    | _ => (calls, .error "unexpected message format")

/-- The method `Client.GetRandomBreedImages` of client.go. -/
def Client.GetRandomBreedImages (c : Client) (breed : String) (count : Int) :
    Calls × Except String (List String) :=
  let url := baseURL ++ "/breed/" ++ breed ++ "/images/random/" ++ fmtD count
  match c.doRequest url with
  | (calls, .error err) => (calls, .error err)
  | (calls, .ok resp) =>
    match resp.Message with
    | .arr imagesList => (calls, .ok (appendStrings imagesList))
    | _ => (calls, .error "unexpected message format")

/-- The method `Client.GetSubBreedImages` of client.go. -/
def Client.GetSubBreedImages (c : Client) (breed subBreed : String) :
    Calls × Except String (List String) :=
  let url := baseURL ++ "/breed/" ++ breed ++ "/" ++ subBreed ++ "/images"
  match c.doRequest url with
  | (calls, .error err) => (calls, .error err)
  | (calls, .ok resp) =>
    match resp.Message with
    | .arr imagesList => (calls, .ok (appendStrings imagesList))
    | _ => (calls, .error "unexpected message format")

/-- The method `Client.GetRandomSubBreedImage` of client.go. -/
def Client.GetRandomSubBreedImage (c : Client) (breed subBreed : String) :
    Calls × Except String String :=
  let url := baseURL ++ "/breed/" ++ breed ++ "/" ++ subBreed ++ "/images/random"
  match c.doRequest url with
  | (calls, .error err) => (calls, .error err)
  | (calls, .ok resp) =>
    match resp.Message with
    | .str imageURL => (calls, .ok imageURL)
    | _ => (calls, .error "unexpected message format")

/-- The method `Client.ListSubBreeds` of client.go. -/
def Client.ListSubBreeds (c : Client) (breed : String) : Calls × Except String (List String) :=
  let url := baseURL ++ "/breed/" ++ breed ++ "/list"
  match c.doRequest url with
  | (calls, .error err) => (calls, .error err)
  | (calls, .ok resp) =>
    match resp.Message with
    | .arr subBreedsList => (calls, .ok (appendStrings subBreedsList))
    | _ => (calls, .error "unexpected message format")

/-! ## The request translator (server.go) -/

/-- The status codes of `google.golang.org/grpc/codes`. -/
inductive Code where
  | OK | Canceled | Unknown | InvalidArgument | DeadlineExceeded | NotFound | AlreadyExists
  | PermissionDenied | ResourceExhausted | FailedPrecondition | Aborted | OutOfRange
  | Unimplemented | Internal | Unavailable | DataLoss | Unauthenticated
  deriving DecidableEq, Repr

/-- The error built by `status.Error(code, msg)` and `status.Errorf(code, format, ...)`. -/
structure Status where
  code : Code
  message : String
  deriving DecidableEq, Repr

/-- Modelled from the spec: the generated message `SubBreeds` of package `pb`
(`{subBreeds: list<string>}`), whose declaration is not among the sources. -/
structure SubBreeds where
  SubBreeds : List String
  deriving DecidableEq, Repr

/-- Modelled from the spec: the generated message `ListAllBreedsResponse`
(`{breeds: map<string, {subBreeds: list<string>}>}`). -/
structure ListAllBreedsResponse where
  Breeds : GoMap SubBreeds
  deriving DecidableEq, Repr

/-- Modelled from the spec: the generated message `ListBreedsResponse` (`{breeds: list<string>}`). -/
structure ListBreedsResponse where
  Breeds : List String
  deriving DecidableEq, Repr

/-- Modelled from the spec: the generated messages `GetRandomImageResponse`,
`GetRandomBreedImageResponse` and `GetRandomSubBreedImageResponse` (`{imageUrl: string}`). -/
structure ImageResponse where
  ImageUrl : String
  deriving DecidableEq, Repr

/-- Modelled from the spec: the generated messages `GetRandomImagesResponse`,
`GetBreedImagesResponse`, `GetRandomBreedImagesResponse` and `GetSubBreedImagesResponse`
(`{imageUrls: list<string>}`). -/
structure ImagesResponse where
  ImageUrls : List String
  deriving DecidableEq, Repr

/-- Modelled from the spec: the generated message `ListSubBreedsResponse`
(`{subBreeds: list<string>}`). -/
structure ListSubBreedsResponse where
  SubBreeds : List String
  deriving DecidableEq, Repr

/-- Modelled from the spec: the generated message `GetRandomImagesRequest` (`count`, an `int32`
in server.go, which converts it with `int(req.Count)`). -/
structure GetRandomImagesRequest where
  Count : Int

/-- Modelled from the spec: the generated messages `GetBreedImagesRequest`,
`GetRandomBreedImageRequest` and `ListSubBreedsRequest` (`breed`). -/
structure BreedRequest where
  Breed : String

/-- Modelled from the spec: the generated message `GetRandomBreedImagesRequest`
(`breed`, `count`). -/
structure GetRandomBreedImagesRequest where
  Breed : String
  Count : Int

/-- Modelled from the spec: the generated messages `GetSubBreedImagesRequest` and
`GetRandomSubBreedImageRequest` (`breed`, `subBreed`). -/
structure SubBreedRequest where
  Breed : String
  SubBreed : String

/-- The struct `Server` of server.go. -/
structure Server where
  client : Client

/-- The method `Server.ListAllBreeds` of server.go. -/
def Server.ListAllBreeds (s : Server) : Calls × Except Status ListAllBreedsResponse :=
  match s.client.ListAllBreeds with
  | (calls, .error err) => (calls, .error ⟨Code.Internal, "failed to list breeds: " ++ err⟩)
  | (calls, .ok breeds) =>
    (calls, .ok ⟨breeds.foldl (fun m entry => GoMap.set m entry.1 ⟨entry.2⟩) []⟩)

/-- The method `Server.ListBreeds` of server.go. -/
def Server.ListBreeds (s : Server) : Calls × Except Status ListBreedsResponse :=
  match s.client.ListBreeds with
  | (calls, .error err) => (calls, .error ⟨Code.Internal, "failed to list breeds: " ++ err⟩)
  | (calls, .ok breeds) => (calls, .ok ⟨breeds⟩)

/-- The method `Server.GetRandomImage` of server.go. -/
def Server.GetRandomImage (s : Server) : Calls × Except Status ImageResponse :=
  match s.client.GetRandomImage with
  | (calls, .error err) => (calls, .error ⟨Code.Internal, "failed to get random image: " ++ err⟩)
  | (calls, .ok imageURL) => (calls, .ok ⟨imageURL⟩)

/-- The method `Server.GetRandomImages` of server.go. -/
def Server.GetRandomImages (s : Server) (req : GetRandomImagesRequest) :
    Calls × Except Status ImagesResponse :=
  if req.Count ≤ 0 ∨ req.Count > 50 then
    ([], .error ⟨Code.InvalidArgument, "count must be between 1 and 50"⟩)
  else
    match s.client.GetRandomImages req.Count with
    | (calls, .error err) =>
      (calls, .error ⟨Code.Internal, "failed to get random images: " ++ err⟩)
    | (calls, .ok images) => (calls, .ok ⟨images⟩)

/-- The method `Server.GetBreedImages` of server.go. -/
def Server.GetBreedImages (s : Server) (req : BreedRequest) :
    Calls × Except Status ImagesResponse :=
  if req.Breed = "" then
    ([], .error ⟨Code.InvalidArgument, "breed is required"⟩)
  else
    match s.client.GetBreedImages req.Breed with
    | (calls, .error err) =>
      (calls, .error ⟨Code.Internal, "failed to get breed images: " ++ err⟩)
    | (calls, .ok images) => (calls, .ok ⟨images⟩)

/-- The method `Server.GetRandomBreedImage` of server.go. -/
def Server.GetRandomBreedImage (s : Server) (req : BreedRequest) :
    Calls × Except Status ImageResponse :=
  if req.Breed = "" then
    ([], .error ⟨Code.InvalidArgument, "breed is required"⟩)
  else
    match s.client.GetRandomBreedImage req.Breed with
    | (calls, .error err) =>
      (calls, .error ⟨Code.Internal, "failed to get random breed image: " ++ err⟩)
    | (calls, .ok imageURL) => (calls, .ok ⟨imageURL⟩)

/-- The method `Server.GetRandomBreedImages` of server.go. -/
def Server.GetRandomBreedImages (s : Server) (req : GetRandomBreedImagesRequest) :
    Calls × Except Status ImagesResponse :=
  if req.Breed = "" then
    ([], .error ⟨Code.InvalidArgument, "breed is required"⟩)
  else if req.Count ≤ 0 ∨ req.Count > 50 then
    ([], .error ⟨Code.InvalidArgument, "count must be between 1 and 50"⟩)
  else
    match s.client.GetRandomBreedImages req.Breed req.Count with
    | (calls, .error err) =>
      (calls, .error ⟨Code.Internal, "failed to get random breed images: " ++ err⟩)
    | (calls, .ok images) => (calls, .ok ⟨images⟩)

/-- The method `Server.GetSubBreedImages` of server.go. -/
def Server.GetSubBreedImages (s : Server) (req : SubBreedRequest) :
    Calls × Except Status ImagesResponse :=
  if req.Breed = "" ∨ req.SubBreed = "" then
    ([], .error ⟨Code.InvalidArgument, "breed and sub-breed are required"⟩)
  else
    match s.client.GetSubBreedImages req.Breed req.SubBreed with
    | (calls, .error err) =>
      (calls, .error ⟨Code.Internal, "failed to get sub-breed images: " ++ err⟩)
    | (calls, .ok images) => (calls, .ok ⟨images⟩)

/-- The method `Server.GetRandomSubBreedImage` of server.go. -/
def Server.GetRandomSubBreedImage (s : Server) (req : SubBreedRequest) :
    Calls × Except Status ImageResponse :=
  if req.Breed = "" ∨ req.SubBreed = "" then
    ([], .error ⟨Code.InvalidArgument, "breed and sub-breed are required"⟩)
  else
    match s.client.GetRandomSubBreedImage req.Breed req.SubBreed with
    | (calls, .error err) =>
      (calls, .error ⟨Code.Internal, "failed to get random sub-breed image: " ++ err⟩)
    | (calls, .ok imageURL) => (calls, .ok ⟨imageURL⟩)

/-- The method `Server.ListSubBreeds` of server.go. -/
def Server.ListSubBreeds (s : Server) (req : BreedRequest) :
    Calls × Except Status ListSubBreedsResponse :=
  if req.Breed = "" then
    ([], .error ⟨Code.InvalidArgument, "breed is required"⟩)
  else
    match s.client.ListSubBreeds req.Breed with
    | (calls, .error err) =>
      (calls, .error ⟨Code.Internal, "failed to list sub-breeds: " ++ err⟩)
    | (calls, .ok subBreeds) => (calls, .ok ⟨subBreeds⟩)

/-! ## Worlds used in examples -/

/-- An upstream that answers every GET with HTTP 200 and the success envelope of `msg`. -/
def succeedWith (msg : JValue) : Server :=
  ⟨⟨fun _ => .response 200 (.decoded ⟨"success", msg⟩)⟩⟩

/-- An upstream that answers every GET with HTTP 200 and an envelope of the given status
and no message. -/
def answerStatus (status : String) : Server :=
  ⟨⟨fun _ => .response 200 (.decoded ⟨status, .null⟩)⟩⟩

/-- An upstream that answers every GET with the given HTTP status code. -/
def answerCode (code : Int) : Server :=
  ⟨⟨fun _ => .response code (.readFailed "unexpected EOF")⟩⟩


/-! ## What `httpClient.Get` does before sending -/

/-- The test `stringContainsCTLByte` of `net/url`, which `httpClient.Get` applies to the string
it is given: a byte below the space or equal to `0x7f` makes the parser refuse the string, and
`Get` returns that error without sending anything. The bytes of the other characters of a
UTF-8 string are all above `0x7f`, so the test is made on characters. -/
def stringContainsCTLByte (s : String) : Bool :=
  s.toList.any (fun b => decide (b.toNat < 0x20) || decide (b.toNat = 0x7f))

/-- The calls of `httpClient.Get` that are not refused for a control character. Only for
these can a GET request leave; the other refusals of the parser are not described, so a call
kept here need not leave either. -/
def notRefused (calls : Calls) : Calls :=
  calls.filter (fun url => !stringContainsCTLByte url)

/-- An upstream behind `net/http`: `httpClient.Get` fails with `err`, before sending, on a
string with a control character, and the GET of any other string is answered by `answer`. -/
def behindParser (err : String) (answer : String → HttpOutcome) : Server :=
  ⟨⟨fun url => if stringContainsCTLByte url then .getFailed err else answer url⟩⟩

/-! ## Definitions used to state and prove the properties -/

/-- The string held by a decoded value, when it is a string. -/
def JValue.string? : JValue → Option String
  | .str s => some s
  | _ => none

/-- What a list-returning method makes of the result of `doRequest`. -/
def shapeList (r : Except String APIResponse) : Except String (List String) :=
  match r with
  | .error err => .error err
  | .ok resp =>
    match resp.Message with
    | .arr list => .ok (list.filterMap JValue.string?)
    | _ => .error "unexpected message format"

/-- What a string-returning method makes of the result of `doRequest`. -/
def shapeString (r : Except String APIResponse) : Except String String :=
  match r with
  | .error err => .error err
  | .ok resp =>
    match resp.Message with
    | .str imageURL => .ok imageURL
    | _ => .error "unexpected message format"

/-- What a server method makes of the result of its adapter method: the failure becomes
`Internal` with the method's fixed text in front, the value is wrapped. -/
def translate {α β : Type} (lead : String) (wrap : α → β) (r : Except String α) :
    Except Status β :=
  match r with
  | .error err => .error ⟨Code.Internal, lead ++ err⟩
  | .ok v => .ok (wrap v)

/-- The entry `ListAllBreeds` of server.go answers for a member of the message: none when the
value is not an array, else the key with the strings of the array. -/
def breedEntry (e : String × JValue) : Option (String × SubBreeds) :=
  match e.2 with
  | .arr list => some (e.1, ⟨list.filterMap JValue.string?⟩)
  | _ => none

/-- The entry `ListAllBreeds` of client.go stores for a member of the message. -/
def clientEntry (e : String × JValue) : Option (List String) :=
  match e.2 with
  | .arr list => some (list.filterMap JValue.string?)
  | _ => none

/-- What `ListAllBreeds` of client.go makes of the result of `doRequest`. -/
def shapeMap (r : Except String APIResponse) : Except String (GoMap (List String)) :=
  match r with
  | .error err => .error err
  | .ok resp =>
    match resp.Message with
    | .obj messageMap =>
      .ok (messageMap.foldl (fun breeds entry =>
        match entry.2 with
        | .arr subBreedsList => GoMap.set breeds entry.1 (appendStrings subBreedsList)
        | _ => breeds) [])
    | _ => .error "unexpected message format"

/-! ## Facts about the shared pieces -/

theorem appendStrings_foldl (list : List JValue) (acc : List String) :
    list.foldl (fun out x => match x with
      | .str s => out ++ [s]
      | _ => out) acc = acc ++ list.filterMap JValue.string? := by
  induction list generalizing acc with
  | nil => simp
  | cons x rest ih =>
    cases x <;> simp [ih, JValue.string?]

theorem appendStrings_eq_filterMap (list : List JValue) :
    appendStrings list = list.filterMap JValue.string? := by
  simp [appendStrings, appendStrings_foldl]

theorem filterMap_string_map_str (strs : List String) :
    (strs.map JValue.str).filterMap JValue.string? = strs := by
  induction strs with
  | nil => rfl
  | cons x rest ih => simp [JValue.string?, List.filterMap_cons, ih]

theorem doRequest_def (c : Client) (url : String) :
    c.doRequest url =
      match c.httpClient url with
      | .getFailed err => ([url], .error ("failed to make request: " ++ err))
      | .response StatusCode body =>
        if StatusCode ≠ StatusOK then
          ([url], .error ("unexpected status code: " ++ fmtD StatusCode))
        else
          match body with
          | .readFailed err => ([url], .error ("failed to read response body: " ++ err))
          | .unmarshalFailed err => ([url], .error ("failed to unmarshal response: " ++ err))
          | .decoded apiResp =>
            if apiResp.Status ≠ "success" then
              ([url], .error ("api returned error status: " ++ apiResp.Status))
            else
              ([url], .ok apiResp) := by
  unfold Client.doRequest Client.Get
  cases c.httpClient url <;> rfl

theorem doRequest_calls (c : Client) (url : String) : (c.doRequest url).1 = [url] := by
  rw [doRequest_def]
  split
  · rfl
  · split
    · rfl
    · split
      · rfl
      · rfl
      · split <;> rfl

theorem Client_ListBreeds_eq (c : Client)  :
    c.ListBreeds  =
      ([baseURL ++ "/breeds/list"], shapeList (c.doRequest (baseURL ++ "/breeds/list")).2) := by
  have h := doRequest_calls c (baseURL ++ "/breeds/list")
  unfold Client.ListBreeds
  rcases hr : c.doRequest (baseURL ++ "/breeds/list") with ⟨calls, r⟩
  rw [hr] at h
  simp only at h
  subst h
  cases r with
  | error e => simp [hr, shapeList]
  | ok resp =>
    rcases resp with ⟨st, msg⟩
    cases msg <;> simp [hr, shapeList, appendStrings_eq_filterMap]

theorem Client_GetRandomImages_eq (c : Client) (count : Int) :
    c.GetRandomImages count =
      ([baseURL ++ "/breeds/image/random/" ++ fmtD count], shapeList (c.doRequest (baseURL ++ "/breeds/image/random/" ++ fmtD count)).2) := by
  have h := doRequest_calls c (baseURL ++ "/breeds/image/random/" ++ fmtD count)
  unfold Client.GetRandomImages
  rcases hr : c.doRequest (baseURL ++ "/breeds/image/random/" ++ fmtD count) with ⟨calls, r⟩
  rw [hr] at h
  simp only at h
  subst h
  cases r with
  | error e => simp [hr, shapeList]
  | ok resp =>
    rcases resp with ⟨st, msg⟩
    cases msg <;> simp [hr, shapeList, appendStrings_eq_filterMap]

theorem Client_GetBreedImages_eq (c : Client) (breed : String) :
    c.GetBreedImages breed =
      ([baseURL ++ "/breed/" ++ breed ++ "/images"], shapeList (c.doRequest (baseURL ++ "/breed/" ++ breed ++ "/images")).2) := by
  have h := doRequest_calls c (baseURL ++ "/breed/" ++ breed ++ "/images")
  unfold Client.GetBreedImages
  rcases hr : c.doRequest (baseURL ++ "/breed/" ++ breed ++ "/images") with ⟨calls, r⟩
  rw [hr] at h
  simp only at h
  subst h
  cases r with
  | error e => simp [hr, shapeList]
  | ok resp =>
    rcases resp with ⟨st, msg⟩
    cases msg <;> simp [hr, shapeList, appendStrings_eq_filterMap]

theorem Client_GetRandomBreedImages_eq (c : Client) (breed : String) (count : Int) :
    c.GetRandomBreedImages breed count =
      ([baseURL ++ "/breed/" ++ breed ++ "/images/random/" ++ fmtD count], shapeList (c.doRequest (baseURL ++ "/breed/" ++ breed ++ "/images/random/" ++ fmtD count)).2) := by
  have h := doRequest_calls c (baseURL ++ "/breed/" ++ breed ++ "/images/random/" ++ fmtD count)
  unfold Client.GetRandomBreedImages
  rcases hr : c.doRequest (baseURL ++ "/breed/" ++ breed ++ "/images/random/" ++ fmtD count) with ⟨calls, r⟩
  rw [hr] at h
  simp only at h
  subst h
  cases r with
  | error e => simp [hr, shapeList]
  | ok resp =>
    rcases resp with ⟨st, msg⟩
    cases msg <;> simp [hr, shapeList, appendStrings_eq_filterMap]

theorem Client_GetSubBreedImages_eq (c : Client) (breed subBreed : String) :
    c.GetSubBreedImages breed subBreed =
      ([baseURL ++ "/breed/" ++ breed ++ "/" ++ subBreed ++ "/images"], shapeList (c.doRequest (baseURL ++ "/breed/" ++ breed ++ "/" ++ subBreed ++ "/images")).2) := by
  have h := doRequest_calls c (baseURL ++ "/breed/" ++ breed ++ "/" ++ subBreed ++ "/images")
  unfold Client.GetSubBreedImages
  rcases hr : c.doRequest (baseURL ++ "/breed/" ++ breed ++ "/" ++ subBreed ++ "/images") with ⟨calls, r⟩
  rw [hr] at h
  simp only at h
  subst h
  cases r with
  | error e => simp [hr, shapeList]
  | ok resp =>
    rcases resp with ⟨st, msg⟩
    cases msg <;> simp [hr, shapeList, appendStrings_eq_filterMap]

theorem Client_ListSubBreeds_eq (c : Client) (breed : String) :
    c.ListSubBreeds breed =
      ([baseURL ++ "/breed/" ++ breed ++ "/list"], shapeList (c.doRequest (baseURL ++ "/breed/" ++ breed ++ "/list")).2) := by
  have h := doRequest_calls c (baseURL ++ "/breed/" ++ breed ++ "/list")
  unfold Client.ListSubBreeds
  rcases hr : c.doRequest (baseURL ++ "/breed/" ++ breed ++ "/list") with ⟨calls, r⟩
  rw [hr] at h
  simp only at h
  subst h
  cases r with
  | error e => simp [hr, shapeList]
  | ok resp =>
    rcases resp with ⟨st, msg⟩
    cases msg <;> simp [hr, shapeList, appendStrings_eq_filterMap]

theorem Client_GetRandomImage_eq (c : Client)  :
    c.GetRandomImage  =
      ([baseURL ++ "/breeds/image/random"], shapeString (c.doRequest (baseURL ++ "/breeds/image/random")).2) := by
  have h := doRequest_calls c (baseURL ++ "/breeds/image/random")
  unfold Client.GetRandomImage
  rcases hr : c.doRequest (baseURL ++ "/breeds/image/random") with ⟨calls, r⟩
  rw [hr] at h
  simp only at h
  subst h
  cases r with
  | error e => simp [hr, shapeString]
  | ok resp =>
    rcases resp with ⟨st, msg⟩
    cases msg <;> simp [hr, shapeString]

theorem Client_GetRandomBreedImage_eq (c : Client) (breed : String) :
    c.GetRandomBreedImage breed =
      ([baseURL ++ "/breed/" ++ breed ++ "/images/random"], shapeString (c.doRequest (baseURL ++ "/breed/" ++ breed ++ "/images/random")).2) := by
  have h := doRequest_calls c (baseURL ++ "/breed/" ++ breed ++ "/images/random")
  unfold Client.GetRandomBreedImage
  rcases hr : c.doRequest (baseURL ++ "/breed/" ++ breed ++ "/images/random") with ⟨calls, r⟩
  rw [hr] at h
  simp only at h
  subst h
  cases r with
  | error e => simp [hr, shapeString]
  | ok resp =>
    rcases resp with ⟨st, msg⟩
    cases msg <;> simp [hr, shapeString]

theorem Client_GetRandomSubBreedImage_eq (c : Client) (breed subBreed : String) :
    c.GetRandomSubBreedImage breed subBreed =
      ([baseURL ++ "/breed/" ++ breed ++ "/" ++ subBreed ++ "/images/random"], shapeString (c.doRequest (baseURL ++ "/breed/" ++ breed ++ "/" ++ subBreed ++ "/images/random")).2) := by
  have h := doRequest_calls c (baseURL ++ "/breed/" ++ breed ++ "/" ++ subBreed ++ "/images/random")
  unfold Client.GetRandomSubBreedImage
  rcases hr : c.doRequest (baseURL ++ "/breed/" ++ breed ++ "/" ++ subBreed ++ "/images/random") with ⟨calls, r⟩
  rw [hr] at h
  simp only at h
  subst h
  cases r with
  | error e => simp [hr, shapeString]
  | ok resp =>
    rcases resp with ⟨st, msg⟩
    cases msg <;> simp [hr, shapeString]

theorem Server_ListBreeds_eq (s : Server)  :
    s.ListBreeds  =
      ((s.client.ListBreeds).1, translate "failed to list breeds: " ListBreedsResponse.mk (s.client.ListBreeds).2) := by
  unfold Server.ListBreeds
  rcases hr : s.client.ListBreeds with ⟨calls, r⟩
  cases r <;> simp [translate]

theorem Server_GetRandomImage_eq (s : Server)  :
    s.GetRandomImage  =
      ((s.client.GetRandomImage).1, translate "failed to get random image: " ImageResponse.mk (s.client.GetRandomImage).2) := by
  unfold Server.GetRandomImage
  rcases hr : s.client.GetRandomImage with ⟨calls, r⟩
  cases r <;> simp [translate]

theorem Server_GetRandomImages_eq (s : Server) (req : GetRandomImagesRequest) (h1 : 1 ≤ req.Count) (h50 : req.Count ≤ 50) :
    s.GetRandomImages req =
      ((s.client.GetRandomImages req.Count).1, translate "failed to get random images: " ImagesResponse.mk (s.client.GetRandomImages req.Count).2) := by
  unfold Server.GetRandomImages
  rw [if_neg (by omega)]
  rcases hr : s.client.GetRandomImages req.Count with ⟨calls, r⟩
  cases r <;> simp [translate]

theorem Server_GetBreedImages_eq (s : Server) (req : BreedRequest) (hb : req.Breed ≠ "") :
    s.GetBreedImages req =
      ((s.client.GetBreedImages req.Breed).1, translate "failed to get breed images: " ImagesResponse.mk (s.client.GetBreedImages req.Breed).2) := by
  unfold Server.GetBreedImages
  rw [if_neg hb]
  rcases hr : s.client.GetBreedImages req.Breed with ⟨calls, r⟩
  cases r <;> simp [translate]

theorem Server_GetRandomBreedImage_eq (s : Server) (req : BreedRequest) (hb : req.Breed ≠ "") :
    s.GetRandomBreedImage req =
      ((s.client.GetRandomBreedImage req.Breed).1, translate "failed to get random breed image: " ImageResponse.mk (s.client.GetRandomBreedImage req.Breed).2) := by
  unfold Server.GetRandomBreedImage
  rw [if_neg hb]
  rcases hr : s.client.GetRandomBreedImage req.Breed with ⟨calls, r⟩
  cases r <;> simp [translate]

theorem Server_GetRandomBreedImages_eq (s : Server) (req : GetRandomBreedImagesRequest) (hb : req.Breed ≠ "")
    (h1 : 1 ≤ req.Count) (h50 : req.Count ≤ 50) :
    s.GetRandomBreedImages req =
      ((s.client.GetRandomBreedImages req.Breed req.Count).1, translate "failed to get random breed images: " ImagesResponse.mk (s.client.GetRandomBreedImages req.Breed req.Count).2) := by
  unfold Server.GetRandomBreedImages
  rw [if_neg hb, if_neg (by omega)]
  rcases hr : s.client.GetRandomBreedImages req.Breed req.Count with ⟨calls, r⟩
  cases r <;> simp [translate]

theorem Server_GetSubBreedImages_eq (s : Server) (req : SubBreedRequest) (hb : req.Breed ≠ "")
    (hsb : req.SubBreed ≠ "") :
    s.GetSubBreedImages req =
      ((s.client.GetSubBreedImages req.Breed req.SubBreed).1, translate "failed to get sub-breed images: " ImagesResponse.mk (s.client.GetSubBreedImages req.Breed req.SubBreed).2) := by
  unfold Server.GetSubBreedImages
  rw [if_neg (by simp [hb, hsb])]
  rcases hr : s.client.GetSubBreedImages req.Breed req.SubBreed with ⟨calls, r⟩
  cases r <;> simp [translate]

theorem Server_GetRandomSubBreedImage_eq (s : Server) (req : SubBreedRequest) (hb : req.Breed ≠ "")
    (hsb : req.SubBreed ≠ "") :
    s.GetRandomSubBreedImage req =
      ((s.client.GetRandomSubBreedImage req.Breed req.SubBreed).1, translate "failed to get random sub-breed image: " ImageResponse.mk (s.client.GetRandomSubBreedImage req.Breed req.SubBreed).2) := by
  unfold Server.GetRandomSubBreedImage
  rw [if_neg (by simp [hb, hsb])]
  rcases hr : s.client.GetRandomSubBreedImage req.Breed req.SubBreed with ⟨calls, r⟩
  cases r <;> simp [translate]

theorem Server_ListSubBreeds_eq (s : Server) (req : BreedRequest) (hb : req.Breed ≠ "") :
    s.ListSubBreeds req =
      ((s.client.ListSubBreeds req.Breed).1, translate "failed to list sub-breeds: " ListSubBreedsResponse.mk (s.client.ListSubBreeds req.Breed).2) := by
  unfold Server.ListSubBreeds
  rw [if_neg hb]
  rcases hr : s.client.ListSubBreeds req.Breed with ⟨calls, r⟩
  cases r <;> simp [translate]

theorem doRequest_success (c : Client) (url : String) (msg : JValue)
    (h : c.httpClient url = .response 200 (.decoded ⟨"success", msg⟩)) :
    (c.doRequest url).2 = .ok ⟨"success", msg⟩ := by
  simp [doRequest_def, h, StatusOK]

theorem doRequest_status (c : Client) (url st : String) (msg : JValue)
    (h : c.httpClient url = .response 200 (.decoded ⟨st, msg⟩)) (hst : st ≠ "success") :
    (c.doRequest url).2 = .error ("api returned error status: " ++ st) := by
  simp [doRequest_def, h, StatusOK, hst]

theorem doRequest_code (c : Client) (url : String) (code : Int) (body : Body)
    (h : c.httpClient url = .response code body) (hcode : code ≠ 200) :
    (c.doRequest url).2 = .error ("unexpected status code: " ++ fmtD code) := by
  simp [doRequest_def, h, StatusOK, hcode]

theorem doRequest_ok_inv (c : Client) (url : String) (resp : APIResponse)
    (h : (c.doRequest url).2 = .ok resp) :
    c.httpClient url = .response 200 (.decoded resp) ∧ resp.Status = "success" := by
  rw [doRequest_def] at h
  split at h
  · simp at h
  · rename_i code body hout
    split at h
    · simp at h
    · rename_i hcode
      have hcode200 : code = 200 := by simpa [StatusOK] using hcode
      split at h
      · simp at h
      · simp at h
      · rename_i apiResp
        split at h
        · simp at h
        · rename_i hst
          simp at h
          subst h
          exact ⟨by rw [hout, hcode200], by simpa using hst⟩

/-! ## Facts about maps and `ListAllBreeds` -/

theorem GoMap_set_of_not_mem {α : Type} (m : GoMap α) (k : String) (v : α)
    (h : k ∉ GoMap.keys m) : GoMap.set m k v = m ++ [(k, v)] := by
  induction m with
  | nil => rfl
  | cons e rest ih =>
    rcases e with ⟨k', v'⟩
    simp only [GoMap.keys, List.map_cons, List.mem_cons, not_or] at h
    have hne : ¬ k' = k := fun hk => h.1 hk.symm
    simp only [GoMap.set, if_neg hne, List.cons_append]
    rw [ih h.2]

theorem GoMap_get_of_not_mem {α : Type} (m : GoMap α) (k : String)
    (h : k ∉ GoMap.keys m) : GoMap.get m k = none := by
  induction m with
  | nil => rfl
  | cons e rest ih =>
    rcases e with ⟨k', v'⟩
    simp only [GoMap.keys, List.map_cons, List.mem_cons, not_or] at h
    have hne : ¬ k' = k := fun hk => h.1 hk.symm
    simp only [GoMap.get, if_neg hne]
    exact ih h.2

theorem keys_append {α : Type} (m m' : GoMap α) :
    GoMap.keys (m ++ m') = GoMap.keys m ++ GoMap.keys m' := by
  simp [GoMap.keys]

theorem fold_set_filterMap {α β : Type} (g : String × α → Option β)
    (f : GoMap β → String × α → GoMap β)
    (hf : ∀ m e, f m e = match g e with
      | some v => GoMap.set m e.1 v
      | none => m)
    (l : List (String × α)) (acc : GoMap β)
    (hnd : (GoMap.keys l).Nodup)
    (hdisj : ∀ k ∈ GoMap.keys l, k ∉ GoMap.keys acc) :
    l.foldl f acc = acc ++ l.filterMap (fun e => (g e).map (fun v => (e.1, v))) := by
  induction l generalizing acc with
  | nil => simp
  | cons e rest ih =>
    simp only [GoMap.keys, List.map_cons, List.nodup_cons, List.mem_cons, forall_eq_or_imp]
      at hnd hdisj
    have hrest : (GoMap.keys rest).Nodup := hnd.2
    rw [List.foldl_cons, hf, List.filterMap_cons]
    cases hg : g e with
    | none => simpa using ih acc hrest hdisj.2
    | some v =>
      simp only [Option.map_some']
      rw [GoMap_set_of_not_mem acc e.1 v hdisj.1, ih _ hrest]
      · simp
      · intro k' hk'
        rw [keys_append]
        simp only [List.mem_append, not_or]
        refine ⟨hdisj.2 k' hk', ?_⟩
        simp only [GoMap.keys, List.map_cons, List.map_nil, List.mem_singleton]
        intro hkk
        exact hnd.1 (hkk ▸ hk')

theorem client_fold (members : List (String × JValue))
    (hnd : (GoMap.keys members).Nodup) :
    members.foldl (fun breeds entry =>
        match entry.2 with
        | .arr subBreedsList => GoMap.set breeds entry.1 (appendStrings subBreedsList)
        | _ => breeds) []
      = members.filterMap (fun e => (clientEntry e).map (fun v => (e.1, v))) := by
  rw [fold_set_filterMap clientEntry _ _ members [] hnd (by simp [GoMap.keys])]
  · simp
  · intro m e
    rcases e with ⟨k, v⟩
    cases v <;> simp [clientEntry, appendStrings_eq_filterMap]

theorem server_fold (breeds : GoMap (List String)) (hnd : (GoMap.keys breeds).Nodup) :
    breeds.foldl (fun m entry => GoMap.set m entry.1 ⟨entry.2⟩) []
      = breeds.map (fun e => (e.1, (⟨e.2⟩ : SubBreeds))) := by
  rw [fold_set_filterMap (fun e => some (⟨e.2⟩ : SubBreeds)) _ _ breeds [] hnd
    (by simp [GoMap.keys])]
  · induction breeds with
    | nil => rfl
    | cons e rest ih =>
      simp only [GoMap.keys, List.map_cons, List.nodup_cons] at hnd
      simp only [List.nil_append] at ih ⊢
      rw [List.filterMap_cons, List.map_cons, ih hnd.2]
      rfl
  · intro m e
    rfl

theorem map_filterMap_clientEntry (members : List (String × JValue)) :
    (members.filterMap (fun e => (clientEntry e).map (fun v => (e.1, v)))).map
        (fun e => (e.1, (⟨e.2⟩ : SubBreeds)))
      = members.filterMap breedEntry := by
  induction members with
  | nil => rfl
  | cons e rest ih =>
    rcases e with ⟨k, v⟩
    cases v <;> simp_all [clientEntry, breedEntry, List.filterMap_cons]

theorem keys_filterMap_clientEntry (members : List (String × JValue)) :
    GoMap.keys (members.filterMap (fun e => (clientEntry e).map (fun v => (e.1, v))))
      = GoMap.keys (members.filterMap breedEntry) := by
  rw [← map_filterMap_clientEntry]
  simp [GoMap.keys]

theorem keys_filterMap_breedEntry (members : List (String × JValue)) (k : String)
    (h : k ∈ GoMap.keys (members.filterMap breedEntry)) : k ∈ GoMap.keys members := by
  simp only [GoMap.keys, List.mem_map, List.mem_filterMap] at h ⊢
  rcases h with ⟨p, ⟨e, he, hp⟩, hk⟩
  refine ⟨e, he, ?_⟩
  rcases e with ⟨k', v⟩
  cases v <;> simp [breedEntry] at hp
  subst hp
  simpa using hk

theorem nodup_filterMap_breedEntry (members : List (String × JValue))
    (hnd : (GoMap.keys members).Nodup) :
    (GoMap.keys (members.filterMap breedEntry)).Nodup := by
  induction members with
  | nil => simp [GoMap.keys]
  | cons e rest ih =>
    rcases e with ⟨k, v⟩
    simp only [GoMap.keys, List.map_cons, List.nodup_cons] at hnd
    have hk : k ∉ GoMap.keys (rest.filterMap breedEntry) :=
      fun h => hnd.1 (keys_filterMap_breedEntry rest k h)
    cases v with
    | arr list =>
      simp only [breedEntry, List.filterMap_cons, GoMap.keys, List.map_cons, List.nodup_cons]
      exact ⟨hk, ih hnd.2⟩
    | null => simpa [breedEntry] using ih hnd.2
    | bool b => simpa [breedEntry] using ih hnd.2
    | num n => simpa [breedEntry] using ih hnd.2
    | str t => simpa [breedEntry] using ih hnd.2
    | obj o => simpa [breedEntry] using ih hnd.2

theorem GoMap_get_of_mem {α : Type} (m : GoMap α) (k : String) (v : α)
    (hnd : (GoMap.keys m).Nodup) (h : (k, v) ∈ m) : GoMap.get m k = some v := by
  induction m with
  | nil => simp at h
  | cons e rest ih =>
    rcases e with ⟨k', v'⟩
    simp only [GoMap.keys, List.map_cons, List.nodup_cons] at hnd
    rcases List.mem_cons.mp h with heq | hrest
    · simp only [Prod.mk.injEq] at heq
      simp [GoMap.get, heq.1, heq.2]
    · have hk : k ∈ List.map Prod.fst rest := List.mem_map.mpr ⟨(k, v), hrest, rfl⟩
      have hne : ¬ k' = k := fun hkk => hnd.1 (hkk ▸ hk)
      simp only [GoMap.get, if_neg hne]
      exact ih hnd.2 hrest

theorem mem_filterMap_breedEntry (members : List (String × JValue)) (k : String)
    (v : SubBreeds) :
    (k, v) ∈ members.filterMap breedEntry ↔
      ∃ list, (k, JValue.arr list) ∈ members ∧ v = ⟨list.filterMap JValue.string?⟩ := by
  simp only [List.mem_filterMap]
  constructor
  · rintro ⟨⟨k', x⟩, he, hp⟩
    cases x <;> simp [breedEntry] at hp
    rcases hp with ⟨hk, hv⟩
    subst hk
    exact ⟨_, he, hv.symm⟩
  · rintro ⟨list, he, hv⟩
    exact ⟨(k, JValue.arr list), he, by simp [breedEntry, hv]⟩

theorem mem_keys_filterMap_breedEntry (members : List (String × JValue)) (k : String) :
    k ∈ GoMap.keys (members.filterMap breedEntry) ↔
      ∃ list, (k, JValue.arr list) ∈ members := by
  constructor
  · intro h
    simp only [GoMap.keys, List.mem_map] at h
    rcases h with ⟨⟨k', v⟩, hp, hk⟩
    simp only at hk
    subst hk
    rcases (mem_filterMap_breedEntry members k' v).mp hp with ⟨list, he, _⟩
    exact ⟨list, he⟩
  · rintro ⟨list, he⟩
    have hp := (mem_filterMap_breedEntry members k ⟨list.filterMap JValue.string?⟩).mpr
      ⟨list, he, rfl⟩
    exact List.mem_map.mpr ⟨_, hp, rfl⟩

theorem Server_ListAllBreeds_of_object (s : Server) (members : List (String × JValue))
    (hnd : (GoMap.keys members).Nodup)
    (hworld : s.client.httpClient (baseURL ++ "/breeds/list/all") =
      .response 200 (.decoded ⟨"success", .obj members⟩)) :
    s.ListAllBreeds =
      ([baseURL ++ "/breeds/list/all"], .ok ⟨members.filterMap breedEntry⟩) := by
  have hd := doRequest_success s.client _ _ hworld
  have hc := doRequest_calls s.client (baseURL ++ "/breeds/list/all")
  unfold Server.ListAllBreeds Client.ListAllBreeds
  rcases hr : s.client.doRequest (baseURL ++ "/breeds/list/all") with ⟨calls, r⟩
  rw [hr] at hd hc
  simp only at hd hc
  subst hd hc
  simp only [hr]
  rw [client_fold members hnd, server_fold _
    (by rw [keys_filterMap_clientEntry]; exact nodup_filterMap_breedEntry members hnd),
    map_filterMap_clientEntry]

theorem Client_ListAllBreeds_eq (c : Client) :
    c.ListAllBreeds =
      ([baseURL ++ "/breeds/list/all"], shapeMap (c.doRequest (baseURL ++ "/breeds/list/all")).2) := by
  have h := doRequest_calls c (baseURL ++ "/breeds/list/all")
  unfold Client.ListAllBreeds
  rcases hr : c.doRequest (baseURL ++ "/breeds/list/all") with ⟨calls, r⟩
  rw [hr] at h
  simp only at h
  subst h
  cases r with
  | error e => simp [hr, shapeMap]
  | ok resp =>
    rcases resp with ⟨st, msg⟩
    cases msg <;> simp [hr, shapeMap]

theorem Server_ListAllBreeds_eq (s : Server) :
    s.ListAllBreeds =
      (s.client.ListAllBreeds.1,
        translate "failed to list breeds: "
          (fun breeds => (⟨breeds.foldl (fun m entry => GoMap.set m entry.1 ⟨entry.2⟩) []⟩ :
            ListAllBreedsResponse))
          s.client.ListAllBreeds.2) := by
  unfold Server.ListAllBreeds
  rcases hr : s.client.ListAllBreeds with ⟨calls, r⟩
  cases r <;> simp [translate]

theorem translate_error {α β : Type} (lead : String) (wrap : α → β) (r : Except String α)
    (err : String) (h : r = .error err) :
    translate lead wrap r = .error ⟨Code.Internal, lead ++ err⟩ := by
  subst h
  rfl

theorem translate_ok_inv {α β : Type} (lead : String) (wrap : α → β) (r : Except String α)
    (w : β) (h : translate lead wrap r = .ok w) : ∃ v, r = .ok v ∧ wrap v = w := by
  cases r with
  | error e => simp [translate] at h
  | ok v => exact ⟨v, rfl, by simpa [translate] using h⟩

theorem shapeList_error (r : Except String APIResponse) (err : String) (h : r = .error err) :
    shapeList r = .error err := by
  subst h
  rfl

theorem shapeString_error (r : Except String APIResponse) (err : String)
    (h : r = .error err) : shapeString r = .error err := by
  subst h
  rfl

theorem shapeMap_error (r : Except String APIResponse) (err : String) (h : r = .error err) :
    shapeMap r = .error err := by
  subst h
  rfl

theorem shapeString_ok_inv (r : Except String APIResponse) (t : String)
    (h : shapeString r = .ok t) : ∃ st, r = .ok ⟨st, .str t⟩ := by
  cases r with
  | error e => simp [shapeString] at h
  | ok resp =>
    rcases resp with ⟨st, msg⟩
    cases msg <;> simp [shapeString] at h
    exact ⟨st, by rw [h]⟩

/-! ## Validation -/

/-- C1: for every integer count (the 32-bit ones among them) with count < 1 or count > 50,
`GetRandomImages` and, for any non-empty breed, `GetRandomBreedImages` return no response and
an error of code `InvalidArgument`, and the list of issued GET requests is empty. -/
theorem count_outside_range_rejected (s : Server) (breed : String) (count : Int)
    (hcount : count < 1 ∨ count > 50) (hbreed : breed ≠ "") :
    s.GetRandomImages ⟨count⟩ =
        ([], .error ⟨Code.InvalidArgument, "count must be between 1 and 50"⟩) ∧
      s.GetRandomBreedImages ⟨breed, count⟩ =
        ([], .error ⟨Code.InvalidArgument, "count must be between 1 and 50"⟩) := by
  have hc : count ≤ 0 ∨ count > 50 := by omega
  constructor
  · simp only [Server.GetRandomImages, if_pos hc]
  · simp only [Server.GetRandomBreedImages, if_neg hbreed, if_pos hc]

theorem count_outside_range_rejected_witness :
    ((51 : Int) < 1 ∨ (51 : Int) > 50) ∧ "husky" ≠ "" ∧
      (succeedWith (.arr [.str "a"])).GetRandomImages ⟨51⟩ =
        ([], .error ⟨Code.InvalidArgument, "count must be between 1 and 50"⟩) ∧
      (succeedWith (.arr [.str "a"])).GetRandomBreedImages ⟨"husky", 51⟩ =
        ([], .error ⟨Code.InvalidArgument, "count must be between 1 and 50"⟩) :=
  ⟨by decide, by decide,
    count_outside_range_rejected (succeedWith (.arr [.str "a"])) "husky" 51
      (by decide) (by decide)⟩

/-- C2: every method that takes a breed, called with the empty breed, and every sub-breed
method called with the empty sub-breed, returns no response and an error of code
`InvalidArgument` whatever the other arguments are, and issues no GET request. -/
theorem empty_name_rejected (s : Server) (other : String) (count : Int) :
    s.GetBreedImages ⟨""⟩ = ([], .error ⟨Code.InvalidArgument, "breed is required"⟩) ∧
      s.GetRandomBreedImage ⟨""⟩ =
        ([], .error ⟨Code.InvalidArgument, "breed is required"⟩) ∧
      s.GetRandomBreedImages ⟨"", count⟩ =
        ([], .error ⟨Code.InvalidArgument, "breed is required"⟩) ∧
      s.ListSubBreeds ⟨""⟩ = ([], .error ⟨Code.InvalidArgument, "breed is required"⟩) ∧
      s.GetSubBreedImages ⟨"", other⟩ =
        ([], .error ⟨Code.InvalidArgument, "breed and sub-breed are required"⟩) ∧
      s.GetRandomSubBreedImage ⟨"", other⟩ =
        ([], .error ⟨Code.InvalidArgument, "breed and sub-breed are required"⟩) ∧
      s.GetSubBreedImages ⟨other, ""⟩ =
        ([], .error ⟨Code.InvalidArgument, "breed and sub-breed are required"⟩) ∧
      s.GetRandomSubBreedImage ⟨other, ""⟩ =
        ([], .error ⟨Code.InvalidArgument, "breed and sub-breed are required"⟩) := by
  refine ⟨?_, ?_, ?_, ?_, ?_, ?_, ?_, ?_⟩
  · simp [Server.GetBreedImages]
  · simp [Server.GetRandomBreedImage]
  · simp [Server.GetRandomBreedImages]
  · simp [Server.ListSubBreeds]
  · simp [Server.GetSubBreedImages]
  · simp [Server.GetRandomSubBreedImage]
  · simp [Server.GetSubBreedImages]
  · simp [Server.GetRandomSubBreedImage]

/-! ## The requested URL -/

theorem stringContainsCTLByte_append (a b : String) :
    stringContainsCTLByte (a ++ b) = (stringContainsCTLByte a || stringContainsCTLByte b) := by
  simp [stringContainsCTLByte, String.toList, String.data_append, List.any_append]

theorem notRefused_singleton (url : String) :
    notRefused [url] = if stringContainsCTLByte url then [] else [url] := by
  cases h : stringContainsCTLByte url <;> simp [notRefused, h]

/-- C8, as the code has it: the breed made of `a`, a line feed and `b` passes validation, and
`GetBreedImages` hands `httpClient.Get` a string with a control character, which `Get` refuses
before sending: the one call is refused, no GET request leaves and the method fails with
`Internal`. So a validated request need not issue a GET. -/
theorem control_character_breed_sends_nothing :
    "a\nb" ≠ "" ∧
      (behindParser "net/url: invalid control character in URL"
          (fun _ => .response 200 (.decoded ⟨"success", .arr []⟩))).GetBreedImages ⟨"a\nb"⟩ =
        (["https://dog.ceo/api/breed/a\nb/images"],
          .error ⟨Code.Internal, "failed to get breed images: failed to make request: " ++
            "net/url: invalid control character in URL"⟩) ∧
      stringContainsCTLByte "https://dog.ceo/api/breed/a\nb/images" = true ∧
      notRefused ((behindParser "net/url: invalid control character in URL"
          (fun _ => .response 200 (.decoded ⟨"success", .arr []⟩))).GetBreedImages
            ⟨"a\nb"⟩).1 = [] ∧
      ¬ (∀ (s : Server) (breed : String), breed ≠ "" →
          notRefused (s.GetBreedImages ⟨breed⟩).1 =
            ["https://dog.ceo/api" ++ "/breed/" ++ breed ++ "/images"]) := by
  refine ⟨by decide, by decide, by decide, by decide, ?_⟩
  intro h
  have h1 := h (behindParser "net/url: invalid control character in URL"
    (fun _ => .response 200 (.decoded ⟨"success", .arr []⟩))) "a\nb" (by decide)
  revert h1
  decide

theorem calls_of_valid_request (s : Server) (breed subBreed : String) (count : Int)
    (hb : breed ≠ "") (hsb : subBreed ≠ "") (h1 : 1 ≤ count) (h50 : count ≤ 50) :
    s.ListAllBreeds.1 = ["https://dog.ceo/api" ++ "/breeds/list/all"] ∧
      s.ListBreeds.1 = ["https://dog.ceo/api" ++ "/breeds/list"] ∧
      s.GetRandomImage.1 = ["https://dog.ceo/api" ++ "/breeds/image/random"] ∧
      (s.GetRandomImages ⟨count⟩).1 =
        ["https://dog.ceo/api" ++ "/breeds/image/random/" ++ toString count] ∧
      (s.GetBreedImages ⟨breed⟩).1 = ["https://dog.ceo/api" ++ "/breed/" ++ breed ++ "/images"] ∧
      (s.GetRandomBreedImage ⟨breed⟩).1 =
        ["https://dog.ceo/api" ++ "/breed/" ++ breed ++ "/images/random"] ∧
      (s.GetRandomBreedImages ⟨breed, count⟩).1 =
        ["https://dog.ceo/api" ++ "/breed/" ++ breed ++ "/images/random/" ++ toString count] ∧
      (s.GetSubBreedImages ⟨breed, subBreed⟩).1 =
        ["https://dog.ceo/api" ++ "/breed/" ++ breed ++ "/" ++ subBreed ++ "/images"] ∧
      (s.GetRandomSubBreedImage ⟨breed, subBreed⟩).1 =
        ["https://dog.ceo/api" ++ "/breed/" ++ breed ++ "/" ++ subBreed ++ "/images/random"] ∧
      (s.ListSubBreeds ⟨breed⟩).1 = ["https://dog.ceo/api" ++ "/breed/" ++ breed ++ "/list"] ∧
      (s.GetRandomBreedImages ⟨"husky", 3⟩).1 =
        ["https://dog.ceo/api/breed/husky/images/random/3"] ∧
      (s.GetRandomSubBreedImage ⟨"spaniel", "cocker"⟩).1 =
        ["https://dog.ceo/api/breed/spaniel/cocker/images/random"] := by
  refine ⟨?_, ?_, ?_, ?_, ?_, ?_, ?_, ?_, ?_, ?_, ?_, ?_⟩
  · rw [Server_ListAllBreeds_eq, Client_ListAllBreeds_eq]; rfl
  · rw [Server_ListBreeds_eq, Client_ListBreeds_eq]; rfl
  · rw [Server_GetRandomImage_eq, Client_GetRandomImage_eq]; rfl
  · rw [Server_GetRandomImages_eq s ⟨count⟩ h1 h50, Client_GetRandomImages_eq]; rfl
  · rw [Server_GetBreedImages_eq s ⟨breed⟩ hb, Client_GetBreedImages_eq]; rfl
  · rw [Server_GetRandomBreedImage_eq s ⟨breed⟩ hb, Client_GetRandomBreedImage_eq]; rfl
  · rw [Server_GetRandomBreedImages_eq s ⟨breed, count⟩ hb h1 h50,
      Client_GetRandomBreedImages_eq]; rfl
  · rw [Server_GetSubBreedImages_eq s ⟨breed, subBreed⟩ hb hsb, Client_GetSubBreedImages_eq]; rfl
  · rw [Server_GetRandomSubBreedImage_eq s ⟨breed, subBreed⟩ hb hsb,
      Client_GetRandomSubBreedImage_eq]; rfl
  · rw [Server_ListSubBreeds_eq s ⟨breed⟩ hb, Client_ListSubBreeds_eq]; rfl
  · rw [Server_GetRandomBreedImages_eq s ⟨"husky", 3⟩ (by decide) (by decide) (by decide),
      Client_GetRandomBreedImages_eq]
    show [baseURL ++ "/breed/" ++ "husky" ++ "/images/random/" ++ fmtD 3] = _
    decide
  · rw [Server_GetRandomSubBreedImage_eq s ⟨"spaniel", "cocker"⟩ (by decide) (by decide),
      Client_GetRandomSubBreedImage_eq]
    show [baseURL ++ "/breed/" ++ "spaniel" ++ "/" ++ "cocker" ++ "/images/random"] = _
    decide

/-- C8, amended: each of the ten methods, on a request that passes validation, calls
`httpClient.Get` exactly once, and the string it hands over is `https://dog.ceo/api` followed
by the path of the method with the breed, the sub-breed and the decimal count of the request
in place; `GetRandomBreedImages` of husky and 3 hands over
`https://dog.ceo/api/breed/husky/images/random/3` and `GetRandomSubBreedImage` of spaniel and
cocker `https://dog.ceo/api/breed/spaniel/cocker/images/random`. At most that one call is not
refused before sending, and it is refused, so that no GET request leaves, when the breed or
the sub-breed holds a control character. -/
theorem one_request_per_call (s : Server) (breed subBreed : String) (count : Int)
    (hb : breed ≠ "") (hsb : subBreed ≠ "") (h1 : 1 ≤ count) (h50 : count ≤ 50) :
    s.ListAllBreeds.1 = ["https://dog.ceo/api" ++ "/breeds/list/all"] ∧
      s.ListBreeds.1 = ["https://dog.ceo/api" ++ "/breeds/list"] ∧
      s.GetRandomImage.1 = ["https://dog.ceo/api" ++ "/breeds/image/random"] ∧
      (s.GetRandomImages ⟨count⟩).1 =
        ["https://dog.ceo/api" ++ "/breeds/image/random/" ++ toString count] ∧
      (s.GetBreedImages ⟨breed⟩).1 = ["https://dog.ceo/api" ++ "/breed/" ++ breed ++ "/images"] ∧
      (s.GetRandomBreedImage ⟨breed⟩).1 =
        ["https://dog.ceo/api" ++ "/breed/" ++ breed ++ "/images/random"] ∧
      (s.GetRandomBreedImages ⟨breed, count⟩).1 =
        ["https://dog.ceo/api" ++ "/breed/" ++ breed ++ "/images/random/" ++ toString count] ∧
      (s.GetSubBreedImages ⟨breed, subBreed⟩).1 =
        ["https://dog.ceo/api" ++ "/breed/" ++ breed ++ "/" ++ subBreed ++ "/images"] ∧
      (s.GetRandomSubBreedImage ⟨breed, subBreed⟩).1 =
        ["https://dog.ceo/api" ++ "/breed/" ++ breed ++ "/" ++ subBreed ++ "/images/random"] ∧
      (s.ListSubBreeds ⟨breed⟩).1 = ["https://dog.ceo/api" ++ "/breed/" ++ breed ++ "/list"] ∧
      (s.GetRandomBreedImages ⟨"husky", 3⟩).1 =
        ["https://dog.ceo/api/breed/husky/images/random/3"] ∧
      (s.GetRandomSubBreedImage ⟨"spaniel", "cocker"⟩).1 =
        ["https://dog.ceo/api/breed/spaniel/cocker/images/random"] ∧
      (∀ calls ∈ [s.ListAllBreeds.1,
          s.ListBreeds.1,
          s.GetRandomImage.1,
          (s.GetRandomImages ⟨count⟩).1,
          (s.GetBreedImages ⟨breed⟩).1,
          (s.GetRandomBreedImage ⟨breed⟩).1,
          (s.GetRandomBreedImages ⟨breed, count⟩).1,
          (s.GetSubBreedImages ⟨breed, subBreed⟩).1,
          (s.GetRandomSubBreedImage ⟨breed, subBreed⟩).1,
          (s.ListSubBreeds ⟨breed⟩).1],
        (notRefused calls).length ≤ 1) ∧
      (stringContainsCTLByte breed = true →
        notRefused (s.GetBreedImages ⟨breed⟩).1 = [] ∧
        notRefused (s.GetRandomBreedImage ⟨breed⟩).1 = [] ∧
        notRefused (s.GetRandomBreedImages ⟨breed, count⟩).1 = [] ∧
        notRefused (s.ListSubBreeds ⟨breed⟩).1 = []) ∧
      (stringContainsCTLByte breed = true ∨ stringContainsCTLByte subBreed = true →
        notRefused (s.GetSubBreedImages ⟨breed, subBreed⟩).1 = [] ∧
        notRefused (s.GetRandomSubBreedImage ⟨breed, subBreed⟩).1 = []) ∧
      notRefused (s.GetRandomBreedImages ⟨"husky", 3⟩).1 =
        ["https://dog.ceo/api/breed/husky/images/random/3"] := by
  obtain ⟨c1, c2, c3, c4, c5, c6, c7, c8, c9, c10, c11, c12⟩ :=
    calls_of_valid_request s breed subBreed count hb hsb h1 h50
  refine ⟨c1, c2, c3, c4, c5, c6, c7, c8, c9, c10, c11, c12, ?_, ?_, ?_, ?_⟩
  · intro calls hmem
    simp only [List.mem_cons, List.mem_singleton, List.not_mem_nil, or_false] at hmem
    rcases hmem with h | h | h | h | h | h | h | h | h | h
    all_goals
      first
        | rw [h, c1] | rw [h, c2] | rw [h, c3] | rw [h, c4] | rw [h, c5]
        | rw [h, c6] | rw [h, c7] | rw [h, c8] | rw [h, c9] | rw [h, c10]
    all_goals
      rw [notRefused_singleton]
      split <;> simp
  · intro hctl
    refine ⟨?_, ?_, ?_, ?_⟩
    · rw [c5, notRefused_singleton, if_pos (by simp [stringContainsCTLByte_append, hctl])]
    · rw [c6, notRefused_singleton, if_pos (by simp [stringContainsCTLByte_append, hctl])]
    · rw [c7, notRefused_singleton, if_pos (by simp [stringContainsCTLByte_append, hctl])]
    · rw [c10, notRefused_singleton, if_pos (by simp [stringContainsCTLByte_append, hctl])]
  · intro hctl
    have hurl : (stringContainsCTLByte breed || stringContainsCTLByte subBreed) = true := by
      rcases hctl with h | h <;> simp [h]
    refine ⟨?_, ?_⟩
    · rw [c8, notRefused_singleton, if_pos]
      simp only [stringContainsCTLByte_append, Bool.or_eq_true] at hurl ⊢
      tauto
    · rw [c9, notRefused_singleton, if_pos]
      simp only [stringContainsCTLByte_append, Bool.or_eq_true] at hurl ⊢
      tauto
  · rw [c11]
    decide

theorem one_request_per_call_witness :
    "husky" ≠ "" ∧ "plott" ≠ "" ∧ (1 : Int) ≤ 50 ∧ (50 : Int) ≤ 50 ∧
      ((answerCode 500).GetRandomBreedImages ⟨"husky", 50⟩).1 =
        ["https://dog.ceo/api" ++ "/breed/" ++ "husky" ++ "/images/random/" ++ toString (50 : Int)] :=
  ⟨by decide, by decide, by decide, by decide,
    (one_request_per_call (answerCode 500) "husky" "plott" 50
      (by decide) (by decide) (by decide) (by decide)).2.2.2.2.2.2.1⟩

/-- C10: breed and sub-breed strings enter the URL as they are, with no check but
non-emptiness: for non-empty `b` and `t`, the breed `b/t` passes the validation of
`GetBreedImages` and makes it request the URL that `GetSubBreedImages` requests for `b` and
`t`, and likewise `GetRandomBreedImage` and `GetRandomSubBreedImage`; the breed `hound/afghan`
requests `https://dog.ceo/api/breed/hound/afghan/images`. -/
theorem slash_in_breed_aliases_sub_breed (s : Server) (b t : String)
    (hb : b ≠ "") (ht : t ≠ "") :
    b ++ "/" ++ t ≠ "" ∧
      (s.GetBreedImages ⟨b ++ "/" ++ t⟩).1 =
        ["https://dog.ceo/api" ++ "/breed/" ++ b ++ "/" ++ t ++ "/images"] ∧
      (s.GetBreedImages ⟨b ++ "/" ++ t⟩).1 = (s.GetSubBreedImages ⟨b, t⟩).1 ∧
      (s.GetRandomBreedImage ⟨b ++ "/" ++ t⟩).1 =
        ["https://dog.ceo/api" ++ "/breed/" ++ b ++ "/" ++ t ++ "/images/random"] ∧
      (s.GetRandomBreedImage ⟨b ++ "/" ++ t⟩).1 = (s.GetRandomSubBreedImage ⟨b, t⟩).1 ∧
      (s.GetBreedImages ⟨"hound/afghan"⟩).1 =
        ["https://dog.ceo/api/breed/hound/afghan/images"] := by
  have hne : b ++ "/" ++ t ≠ "" := by
    intro h
    have hl := congrArg String.length h
    simp only [String.length_append] at hl
    have h1 : "/".length = 1 := by decide
    have h0 : "".length = 0 := by decide
    omega
  have e1 : (s.GetBreedImages ⟨b ++ "/" ++ t⟩).1 =
      ["https://dog.ceo/api" ++ "/breed/" ++ b ++ "/" ++ t ++ "/images"] := by
    rw [Server_GetBreedImages_eq s ⟨b ++ "/" ++ t⟩ hne, Client_GetBreedImages_eq]
    simp [baseURL, String.append_assoc]
  have e2 : (s.GetRandomBreedImage ⟨b ++ "/" ++ t⟩).1 =
      ["https://dog.ceo/api" ++ "/breed/" ++ b ++ "/" ++ t ++ "/images/random"] := by
    rw [Server_GetRandomBreedImage_eq s ⟨b ++ "/" ++ t⟩ hne, Client_GetRandomBreedImage_eq]
    simp [baseURL, String.append_assoc]
  refine ⟨hne, e1, ?_, e2, ?_, ?_⟩
  · rw [e1, Server_GetSubBreedImages_eq s ⟨b, t⟩ hb ht, Client_GetSubBreedImages_eq]
    rfl
  · rw [e2, Server_GetRandomSubBreedImage_eq s ⟨b, t⟩ hb ht, Client_GetRandomSubBreedImage_eq]
    rfl
  · rw [Server_GetBreedImages_eq s ⟨"hound/afghan"⟩ (by decide), Client_GetBreedImages_eq]
    show [baseURL ++ "/breed/" ++ "hound/afghan" ++ "/images"] = _
    decide

theorem slash_in_breed_aliases_sub_breed_witness :
    "hound" ≠ "" ∧ "afghan" ≠ "" ∧
      ((answerStatus "error").GetBreedImages ⟨"hound" ++ "/" ++ "afghan"⟩).1 =
        ((answerStatus "error").GetSubBreedImages ⟨"hound", "afghan"⟩).1 :=
  ⟨by decide, by decide,
    (slash_in_breed_aliases_sub_breed (answerStatus "error") "hound" "afghan"
      (by decide) (by decide)).2.2.1⟩

/-! ## Failures of the adapter -/

/-- C3: on a request that passes validation, each of the ten methods answers a failure of its
adapter method with no response and an error of code `Internal` whose message is the fixed
text of the method followed by the error text of the adapter; the adapter method fails with
the error of `doRequest`, and `doRequest` fails with `api returned error status: ` and the
status when the decoded status is not `success`, and with `unexpected status code: ` and the
code when the HTTP status is not 200. For `GetRandomImage` and status `error` the message is
`failed to get random image: api returned error status: error`. -/
theorem adapter_failure_reported_internal (s : Server) (breed subBreed : String) (count : Int)
    (hb : breed ≠ "") (hsb : subBreed ≠ "") (h1 : 1 ≤ count) (h50 : count ≤ 50) :
    (∀ err, (s.client.ListAllBreeds).2 = .error err →
        (s.ListAllBreeds).2 = .error ⟨Code.Internal, "failed to list breeds: " ++ err⟩) ∧
      (∀ err, (s.client.ListBreeds).2 = .error err →
        (s.ListBreeds).2 = .error ⟨Code.Internal, "failed to list breeds: " ++ err⟩) ∧
      (∀ err, (s.client.GetRandomImage).2 = .error err →
        (s.GetRandomImage).2 = .error ⟨Code.Internal, "failed to get random image: " ++ err⟩) ∧
      (∀ err, (s.client.GetRandomImages count).2 = .error err →
        (s.GetRandomImages ⟨count⟩).2 = .error ⟨Code.Internal, "failed to get random images: " ++ err⟩) ∧
      (∀ err, (s.client.GetBreedImages breed).2 = .error err →
        (s.GetBreedImages ⟨breed⟩).2 = .error ⟨Code.Internal, "failed to get breed images: " ++ err⟩) ∧
      (∀ err, (s.client.GetRandomBreedImage breed).2 = .error err →
        (s.GetRandomBreedImage ⟨breed⟩).2 = .error ⟨Code.Internal, "failed to get random breed image: " ++ err⟩) ∧
      (∀ err, (s.client.GetRandomBreedImages breed count).2 = .error err →
        (s.GetRandomBreedImages ⟨breed, count⟩).2 = .error ⟨Code.Internal, "failed to get random breed images: " ++ err⟩) ∧
      (∀ err, (s.client.GetSubBreedImages breed subBreed).2 = .error err →
        (s.GetSubBreedImages ⟨breed, subBreed⟩).2 = .error ⟨Code.Internal, "failed to get sub-breed images: " ++ err⟩) ∧
      (∀ err, (s.client.GetRandomSubBreedImage breed subBreed).2 = .error err →
        (s.GetRandomSubBreedImage ⟨breed, subBreed⟩).2 = .error ⟨Code.Internal, "failed to get random sub-breed image: " ++ err⟩) ∧
      (∀ err, (s.client.ListSubBreeds breed).2 = .error err →
        (s.ListSubBreeds ⟨breed⟩).2 = .error ⟨Code.Internal, "failed to list sub-breeds: " ++ err⟩) ∧
      (∀ err, (s.client.doRequest (baseURL ++ "/breeds/list/all")).2 = .error err →
        (s.client.ListAllBreeds).2 = .error err) ∧
      (∀ err, (s.client.doRequest (baseURL ++ "/breeds/list")).2 = .error err →
        (s.client.ListBreeds).2 = .error err) ∧
      (∀ err, (s.client.doRequest (baseURL ++ "/breeds/image/random")).2 = .error err →
        (s.client.GetRandomImage).2 = .error err) ∧
      (∀ err, (s.client.doRequest (baseURL ++ "/breeds/image/random/" ++ fmtD count)).2 = .error err →
        (s.client.GetRandomImages count).2 = .error err) ∧
      (∀ err, (s.client.doRequest (baseURL ++ "/breed/" ++ breed ++ "/images")).2 = .error err →
        (s.client.GetBreedImages breed).2 = .error err) ∧
      (∀ err, (s.client.doRequest (baseURL ++ "/breed/" ++ breed ++ "/images/random")).2 = .error err →
        (s.client.GetRandomBreedImage breed).2 = .error err) ∧
      (∀ err, (s.client.doRequest (baseURL ++ "/breed/" ++ breed ++ "/images/random/" ++ fmtD count)).2 = .error err →
        (s.client.GetRandomBreedImages breed count).2 = .error err) ∧
      (∀ err, (s.client.doRequest (baseURL ++ "/breed/" ++ breed ++ "/" ++ subBreed ++ "/images")).2 = .error err →
        (s.client.GetSubBreedImages breed subBreed).2 = .error err) ∧
      (∀ err, (s.client.doRequest (baseURL ++ "/breed/" ++ breed ++ "/" ++ subBreed ++ "/images/random")).2 = .error err →
        (s.client.GetRandomSubBreedImage breed subBreed).2 = .error err) ∧
      (∀ err, (s.client.doRequest (baseURL ++ "/breed/" ++ breed ++ "/list")).2 = .error err →
        (s.client.ListSubBreeds breed).2 = .error err) ∧
      (∀ url st msg, s.client.httpClient url = .response 200 (.decoded ⟨st, msg⟩) →
        st ≠ "success" →
        (s.client.doRequest url).2 = .error ("api returned error status: " ++ st)) ∧
      (∀ url code body, s.client.httpClient url = .response code body → code ≠ 200 →
        (s.client.doRequest url).2 = .error ("unexpected status code: " ++ toString code)) ∧
      (answerStatus "error").GetRandomImage.2 =
        .error ⟨Code.Internal, "failed to get random image: api returned error status: error"⟩ := by
  refine ⟨?_, ?_, ?_, ?_, ?_, ?_, ?_, ?_, ?_, ?_, ?_, ?_, ?_, ?_, ?_, ?_, ?_, ?_, ?_, ?_, ?_, ?_, ?_⟩
  · intro err h
    rw [Server_ListAllBreeds_eq ]
    exact translate_error _ _ _ err h
  · intro err h
    rw [Server_ListBreeds_eq ]
    exact translate_error _ _ _ err h
  · intro err h
    rw [Server_GetRandomImage_eq ]
    exact translate_error _ _ _ err h
  · intro err h
    rw [Server_GetRandomImages_eq s ⟨count⟩ h1 h50]
    exact translate_error _ _ _ err h
  · intro err h
    rw [Server_GetBreedImages_eq s ⟨breed⟩ hb]
    exact translate_error _ _ _ err h
  · intro err h
    rw [Server_GetRandomBreedImage_eq s ⟨breed⟩ hb]
    exact translate_error _ _ _ err h
  · intro err h
    rw [Server_GetRandomBreedImages_eq s ⟨breed, count⟩ hb h1 h50]
    exact translate_error _ _ _ err h
  · intro err h
    rw [Server_GetSubBreedImages_eq s ⟨breed, subBreed⟩ hb hsb]
    exact translate_error _ _ _ err h
  · intro err h
    rw [Server_GetRandomSubBreedImage_eq s ⟨breed, subBreed⟩ hb hsb]
    exact translate_error _ _ _ err h
  · intro err h
    rw [Server_ListSubBreeds_eq s ⟨breed⟩ hb]
    exact translate_error _ _ _ err h
  · intro err h
    rw [Client_ListAllBreeds_eq]
    exact shapeMap_error _ err h
  · intro err h
    rw [Client_ListBreeds_eq]
    exact shapeList_error _ err h
  · intro err h
    rw [Client_GetRandomImage_eq]
    exact shapeString_error _ err h
  · intro err h
    rw [Client_GetRandomImages_eq]
    exact shapeList_error _ err h
  · intro err h
    rw [Client_GetBreedImages_eq]
    exact shapeList_error _ err h
  · intro err h
    rw [Client_GetRandomBreedImage_eq]
    exact shapeString_error _ err h
  · intro err h
    rw [Client_GetRandomBreedImages_eq]
    exact shapeList_error _ err h
  · intro err h
    rw [Client_GetSubBreedImages_eq]
    exact shapeList_error _ err h
  · intro err h
    rw [Client_GetRandomSubBreedImage_eq]
    exact shapeString_error _ err h
  · intro err h
    rw [Client_ListSubBreeds_eq]
    exact shapeList_error _ err h
  · exact fun url st msg h hst => doRequest_status s.client url st msg h hst
  · exact fun url code body h hcode => doRequest_code s.client url code body h hcode
  · decide

theorem adapter_failure_reported_internal_witness :
    "husky" ≠ "" ∧ "plott" ≠ "" ∧ (1 : Int) ≤ 3 ∧ (3 : Int) ≤ 50 ∧
      ((answerCode 404).client.GetRandomBreedImages "husky" 3).2 =
        .error "unexpected status code: 404" ∧
      ((answerCode 404).GetRandomBreedImages ⟨"husky", 3⟩).2 =
        .error ⟨Code.Internal, "failed to get random breed images: " ++
          "unexpected status code: 404"⟩ :=
  ⟨by decide, by decide, by decide, by decide, by decide,
    (adapter_failure_reported_internal (answerCode 404) "husky" "plott" 3
      (by decide) (by decide) (by decide) (by decide)).2.2.2.2.2.2.1
      "unexpected status code: 404" (by decide)⟩

/-! ## The shape of the message -/

theorem shapeString_mismatch (st : String) (msg : JValue) (h : ∀ t, msg ≠ .str t) :
    shapeString (.ok ⟨st, msg⟩) = .error "unexpected message format" := by
  cases msg <;> simp [shapeString] at h ⊢

theorem shapeList_mismatch (st : String) (msg : JValue) (h : ∀ l, msg ≠ .arr l) :
    shapeList (.ok ⟨st, msg⟩) = .error "unexpected message format" := by
  cases msg <;> simp [shapeList] at h ⊢

theorem shapeMap_mismatch (st : String) (msg : JValue) (h : ∀ m, msg ≠ .obj m) :
    shapeMap (.ok ⟨st, msg⟩) = .error "unexpected message format" := by
  cases msg <;> simp [shapeMap] at h ⊢

/-- C4: when the upstream answers with HTTP 200 and a success envelope, an adapter method
whose expected shape the message does not have fails with `unexpected message format` and
returns no value: the three string-returning methods when the message is not a string (a
list, a map, a number, a boolean, null or absent), the six list-returning methods when it is
not an array, `ListAllBreeds` when it is not an object. -/
theorem wrong_shape_fails (c : Client) (msg : JValue) (breed subBreed : String) (count : Int)
    (hworld : ∀ url, c.httpClient url = .response 200 (.decoded ⟨"success", msg⟩)) :
    ((∀ t, msg ≠ .str t) →
        c.GetRandomImage.2 = .error "unexpected message format" ∧
        (c.GetRandomBreedImage breed).2 = .error "unexpected message format" ∧
        (c.GetRandomSubBreedImage breed subBreed).2 = .error "unexpected message format") ∧
      ((∀ l, msg ≠ .arr l) →
        c.ListBreeds.2 = .error "unexpected message format" ∧
        (c.GetRandomImages count).2 = .error "unexpected message format" ∧
        (c.GetBreedImages breed).2 = .error "unexpected message format" ∧
        (c.GetRandomBreedImages breed count).2 = .error "unexpected message format" ∧
        (c.GetSubBreedImages breed subBreed).2 = .error "unexpected message format" ∧
        (c.ListSubBreeds breed).2 = .error "unexpected message format") ∧
      ((∀ m, msg ≠ .obj m) → c.ListAllBreeds.2 = .error "unexpected message format") ∧
      (msg = .null ∨ (∃ b, msg = .bool b) ∨ (∃ n, msg = .num n) ∨ (∃ l, msg = .arr l) ∨
          (∃ m, msg = .obj m) → c.GetRandomImage.2 = .error "unexpected message format") := by
  have hstr : (∀ t, msg ≠ .str t) →
      c.GetRandomImage.2 = .error "unexpected message format" ∧
      (c.GetRandomBreedImage breed).2 = .error "unexpected message format" ∧
      (c.GetRandomSubBreedImage breed subBreed).2 = .error "unexpected message format" := by
    intro h
    refine ⟨?_, ?_, ?_⟩
    · rw [Client_GetRandomImage_eq, doRequest_success c _ msg (hworld _)]
      exact shapeString_mismatch _ msg h
    · rw [Client_GetRandomBreedImage_eq, doRequest_success c _ msg (hworld _)]
      exact shapeString_mismatch _ msg h
    · rw [Client_GetRandomSubBreedImage_eq, doRequest_success c _ msg (hworld _)]
      exact shapeString_mismatch _ msg h
  refine ⟨hstr, ?_, ?_, ?_⟩
  · intro h
    refine ⟨?_, ?_, ?_, ?_, ?_, ?_⟩
    · rw [Client_ListBreeds_eq, doRequest_success c _ msg (hworld _)]
      exact shapeList_mismatch _ msg h
    · rw [Client_GetRandomImages_eq, doRequest_success c _ msg (hworld _)]
      exact shapeList_mismatch _ msg h
    · rw [Client_GetBreedImages_eq, doRequest_success c _ msg (hworld _)]
      exact shapeList_mismatch _ msg h
    · rw [Client_GetRandomBreedImages_eq, doRequest_success c _ msg (hworld _)]
      exact shapeList_mismatch _ msg h
    · rw [Client_GetSubBreedImages_eq, doRequest_success c _ msg (hworld _)]
      exact shapeList_mismatch _ msg h
    · rw [Client_ListSubBreeds_eq, doRequest_success c _ msg (hworld _)]
      exact shapeList_mismatch _ msg h
  · intro h
    rw [Client_ListAllBreeds_eq, doRequest_success c _ msg (hworld _)]
    exact shapeMap_mismatch _ msg h
  · intro h
    refine (hstr ?_).1
    intro t ht
    subst ht
    simp at h

theorem wrong_shape_fails_witness :
    (∀ url, (succeedWith (.num "5")).client.httpClient url =
        .response 200 (.decoded ⟨"success", .num "5"⟩)) ∧
      (succeedWith (.num "5")).client.ListAllBreeds.2 = .error "unexpected message format" :=
  ⟨fun _ => rfl,
    (wrong_shape_fails (succeedWith (.num "5")).client (.num "5") "husky" "plott" 3
      (fun _ => rfl)).2.2.1 (by intro m h; cases h)⟩

/-! ## Successful answers -/

/-- C7: when the upstream answers with HTTP 200 and a success envelope whose message is the
string `t`, `GetRandomImage` returns the response of image URL `t` and no error, and so do
`GetRandomBreedImage` and `GetRandomSubBreedImage` on a request with non-empty breed (and
sub-breed); for `https://x/y.jpg` the response holds `https://x/y.jpg`. -/
theorem string_message_passed_through (s : Server) (t breed subBreed : String)
    (hb : breed ≠ "") (hsb : subBreed ≠ "")
    (hworld : ∀ url, s.client.httpClient url = .response 200 (.decoded ⟨"success", .str t⟩)) :
    s.GetRandomImage.2 = .ok ⟨t⟩ ∧
      (s.GetRandomBreedImage ⟨breed⟩).2 = .ok ⟨t⟩ ∧
      (s.GetRandomSubBreedImage ⟨breed, subBreed⟩).2 = .ok ⟨t⟩ ∧
      (succeedWith (.str "https://x/y.jpg")).GetRandomImage.2 = .ok ⟨"https://x/y.jpg"⟩ := by
  refine ⟨?_, ?_, ?_, by decide⟩
  · rw [Server_GetRandomImage_eq, Client_GetRandomImage_eq,
      doRequest_success s.client _ _ (hworld _)]
    rfl
  · rw [Server_GetRandomBreedImage_eq s ⟨breed⟩ hb, Client_GetRandomBreedImage_eq,
      doRequest_success s.client _ _ (hworld _)]
    rfl
  · rw [Server_GetRandomSubBreedImage_eq s ⟨breed, subBreed⟩ hb hsb,
      Client_GetRandomSubBreedImage_eq, doRequest_success s.client _ _ (hworld _)]
    rfl

theorem string_message_passed_through_witness :
    "spaniel" ≠ "" ∧ "cocker" ≠ "" ∧
      (∀ url, (succeedWith (.str "https://x/y.jpg")).client.httpClient url =
        .response 200 (.decoded ⟨"success", .str "https://x/y.jpg"⟩)) ∧
      ((succeedWith (.str "https://x/y.jpg")).GetRandomSubBreedImage ⟨"spaniel", "cocker"⟩).2 =
        .ok ⟨"https://x/y.jpg"⟩ :=
  ⟨by decide, by decide, fun _ => rfl,
    (string_message_passed_through (succeedWith (.str "https://x/y.jpg")) "https://x/y.jpg"
      "spaniel" "cocker" (by decide) (by decide) (fun _ => rfl)).2.2.1⟩

/-- C5: when the upstream answers with HTTP 200 and a success envelope whose message is an
array, each of the six list-returning methods, on a request that passes validation, succeeds
and returns the string elements of the array in their order, whatever the count: the other
elements are dropped (`a`, 5, `b` gives `a`, `b`) and an array of strings is returned as it
is (`a`, `b`, `c` for `GetRandomImages` of 3 gives `a`, `b`, `c`). -/
theorem array_message_filtered (s : Server) (elems : List JValue) (breed subBreed : String)
    (count : Int) (hb : breed ≠ "") (hsb : subBreed ≠ "") (h1 : 1 ≤ count) (h50 : count ≤ 50)
    (hworld : ∀ url, s.client.httpClient url =
      .response 200 (.decoded ⟨"success", .arr elems⟩)) :
    s.ListBreeds.2 = .ok ⟨elems.filterMap JValue.string?⟩ ∧
      (s.GetRandomImages ⟨count⟩).2 = .ok ⟨elems.filterMap JValue.string?⟩ ∧
      (s.GetBreedImages ⟨breed⟩).2 = .ok ⟨elems.filterMap JValue.string?⟩ ∧
      (s.GetRandomBreedImages ⟨breed, count⟩).2 = .ok ⟨elems.filterMap JValue.string?⟩ ∧
      (s.GetSubBreedImages ⟨breed, subBreed⟩).2 = .ok ⟨elems.filterMap JValue.string?⟩ ∧
      (s.ListSubBreeds ⟨breed⟩).2 = .ok ⟨elems.filterMap JValue.string?⟩ ∧
      (∀ strs : List String, elems = strs.map JValue.str →
        (s.GetRandomImages ⟨count⟩).2 = .ok ⟨strs⟩) ∧
      ((succeedWith (.arr [.str "a", .num "5", .str "b"])).GetBreedImages ⟨"husky"⟩).2 =
        .ok ⟨["a", "b"]⟩ ∧
      ((succeedWith (.arr [.str "a", .str "b", .str "c"])).GetRandomImages ⟨3⟩).2 =
        .ok ⟨["a", "b", "c"]⟩ := by
  have e2 : (s.GetRandomImages ⟨count⟩).2 = .ok ⟨elems.filterMap JValue.string?⟩ := by
    rw [Server_GetRandomImages_eq s ⟨count⟩ h1 h50, Client_GetRandomImages_eq,
      doRequest_success s.client _ _ (hworld _)]
    rfl
  refine ⟨?_, e2, ?_, ?_, ?_, ?_, ?_, by decide, by decide⟩
  · rw [Server_ListBreeds_eq, Client_ListBreeds_eq, doRequest_success s.client _ _ (hworld _)]
    rfl
  · rw [Server_GetBreedImages_eq s ⟨breed⟩ hb, Client_GetBreedImages_eq,
      doRequest_success s.client _ _ (hworld _)]
    rfl
  · rw [Server_GetRandomBreedImages_eq s ⟨breed, count⟩ hb h1 h50,
      Client_GetRandomBreedImages_eq, doRequest_success s.client _ _ (hworld _)]
    rfl
  · rw [Server_GetSubBreedImages_eq s ⟨breed, subBreed⟩ hb hsb, Client_GetSubBreedImages_eq,
      doRequest_success s.client _ _ (hworld _)]
    rfl
  · rw [Server_ListSubBreeds_eq s ⟨breed⟩ hb, Client_ListSubBreeds_eq,
      doRequest_success s.client _ _ (hworld _)]
    rfl
  · intro strs hs
    rw [e2, hs, filterMap_string_map_str]

theorem array_message_filtered_witness :
    "husky" ≠ "" ∧ "plott" ≠ "" ∧ (1 : Int) ≤ 1 ∧ (1 : Int) ≤ 50 ∧
      (∀ url, (succeedWith (.arr [.str "a", .bool true, .str "b"])).client.httpClient url =
        .response 200 (.decoded ⟨"success", .arr [.str "a", .bool true, .str "b"]⟩)) ∧
      ((succeedWith (.arr [.str "a", .bool true, .str "b"])).GetRandomBreedImages
          ⟨"husky", 1⟩).2 =
        .ok ⟨[JValue.str "a", JValue.bool true, JValue.str "b"].filterMap JValue.string?⟩ :=
  ⟨by decide, by decide, by decide, by decide, fun _ => rfl,
    (array_message_filtered (succeedWith (.arr [.str "a", .bool true, .str "b"]))
      [.str "a", .bool true, .str "b"] "husky" "plott" 1
      (by decide) (by decide) (by decide) (by decide) (fun _ => rfl)).2.2.2.1⟩

/-- C6: when the upstream answers the GET of `/breeds/list/all` with HTTP 200 and a success
envelope whose message is an object, `ListAllBreeds` succeeds; the keys of its response map
are the keys of the message whose value is an array (the other keys are left out and cause no
error), and each of them maps to the string elements of its array in their order. For the
message with husky mapped to the array of agouti and boxer to the empty array, husky maps to
the list of agouti and boxer is present with the empty list. -/
theorem ListAllBreeds_of_object_message (s : Server) (members : List (String × JValue))
    (hkeys : (GoMap.keys members).Nodup)
    (hworld : s.client.httpClient ("https://dog.ceo/api" ++ "/breeds/list/all") =
      .response 200 (.decoded ⟨"success", .obj members⟩)) :
    ∃ resp : ListAllBreedsResponse,
      s.ListAllBreeds.2 = .ok resp ∧
      (GoMap.keys resp.Breeds).Nodup ∧
      (∀ k, k ∈ GoMap.keys resp.Breeds ↔ ∃ list, (k, JValue.arr list) ∈ members) ∧
      (∀ k list, (k, JValue.arr list) ∈ members →
        GoMap.get resp.Breeds k = some ⟨list.filterMap JValue.string?⟩) ∧
      (∀ k, (∀ list, (k, JValue.arr list) ∉ members) → GoMap.get resp.Breeds k = none) ∧
      (∃ sample : ListAllBreedsResponse,
        (succeedWith (.obj [("husky", .arr [.str "agouti"]), ("boxer", .arr [])])).ListAllBreeds.2
          = .ok sample ∧
        GoMap.get sample.Breeds "husky" = some ⟨["agouti"]⟩ ∧
        GoMap.get sample.Breeds "boxer" = some ⟨[]⟩) := by
  refine ⟨⟨members.filterMap breedEntry⟩, ?_, ?_, ?_, ?_, ?_, ?_⟩
  · rw [Server_ListAllBreeds_of_object s members hkeys hworld]
  · exact nodup_filterMap_breedEntry members hkeys
  · exact mem_keys_filterMap_breedEntry members
  · intro k list hmem
    exact GoMap_get_of_mem _ k _ (nodup_filterMap_breedEntry members hkeys)
      ((mem_filterMap_breedEntry members k _).mpr ⟨list, hmem, rfl⟩)
  · intro k hno
    apply GoMap_get_of_not_mem
    intro hk
    rcases (mem_keys_filterMap_breedEntry members k).mp hk with ⟨list, hmem⟩
    exact hno list hmem
  · exact ⟨⟨[("husky", ⟨["agouti"]⟩), ("boxer", ⟨[]⟩)]⟩, by decide, by decide, by decide⟩

theorem ListAllBreeds_of_object_message_witness :
    (GoMap.keys [("husky", JValue.arr [.str "agouti", .null]), ("mix", JValue.str "x")]).Nodup ∧
      (succeedWith (.obj [("husky", .arr [.str "agouti", .null]),
          ("mix", .str "x")])).client.httpClient ("https://dog.ceo/api" ++ "/breeds/list/all") =
        .response 200 (.decoded ⟨"success", .obj [("husky", .arr [.str "agouti", .null]),
          ("mix", .str "x")]⟩) ∧
      (∃ resp : ListAllBreedsResponse,
        (succeedWith (.obj [("husky", .arr [.str "agouti", .null]),
          ("mix", .str "x")])).ListAllBreeds.2 = .ok resp ∧
        GoMap.keys resp.Breeds = ["husky"]) :=
  ⟨by decide, rfl, by
    rcases ListAllBreeds_of_object_message
      (succeedWith (.obj [("husky", .arr [.str "agouti", .null]), ("mix", .str "x")]))
      [("husky", .arr [.str "agouti", .null]), ("mix", .str "x")] (by decide) rfl
      with ⟨resp, hresp, _⟩
    refine ⟨resp, hresp, ?_⟩
    have hval : (succeedWith (.obj [("husky", .arr [.str "agouti", .null]),
        ("mix", .str "x")])).ListAllBreeds.2 = .ok ⟨[("husky", ⟨["agouti"]⟩)]⟩ := by decide
    rw [hval] at hresp
    cases hresp
    rfl⟩

/-! ## The returned image URL -/

theorem image_of_doRequest (c : Client) (url : String) (r : ImageResponse) (lead : String)
    (h : translate lead ImageResponse.mk (shapeString (c.doRequest url).2) = .ok r) :
    c.httpClient url = .response 200 (.decoded ⟨"success", .str r.ImageUrl⟩) := by
  rcases translate_ok_inv _ _ _ _ h with ⟨t, ht, hr⟩
  rcases shapeString_ok_inv _ _ ht with ⟨st, hst⟩
  rcases doRequest_ok_inv c url _ hst with ⟨hout, hsuccess⟩
  simp only at hsuccess
  subst hsuccess
  subst hr
  exact hout

/-- C9, as the code has it: an upstream answering with HTTP 200 and the success envelope of
the empty string makes `GetRandomImage`, `GetRandomBreedImage` and `GetRandomSubBreedImage`
succeed with the empty image URL, so a returned image URL need not be non-empty. -/
theorem empty_image_url_returned :
    (succeedWith (.str "")).GetRandomImage =
        (["https://dog.ceo/api/breeds/image/random"], .ok ⟨""⟩) ∧
      (succeedWith (.str "")).GetRandomBreedImage ⟨"husky"⟩ =
        (["https://dog.ceo/api/breed/husky/images/random"], .ok ⟨""⟩) ∧
      (succeedWith (.str "")).GetRandomSubBreedImage ⟨"spaniel", "cocker"⟩ =
        (["https://dog.ceo/api/breed/spaniel/cocker/images/random"], .ok ⟨""⟩) ∧
      ¬ (∀ (s : Server) (r : ImageResponse), s.GetRandomImage.2 = .ok r → r.ImageUrl ≠ "") := by
  refine ⟨by decide, by decide, by decide, ?_⟩
  intro h
  exact h (succeedWith (.str "")) ⟨""⟩ (by decide) rfl

/-- C9, amended: whenever `GetRandomImage`, `GetRandomBreedImage` or `GetRandomSubBreedImage`
succeeds, the upstream answered the GET of the method with HTTP 200 and a success envelope
whose message is a string, and the returned image URL is that string (empty or not). -/
theorem image_url_is_upstream_message (s : Server) (breed subBreed : String)
    (r : ImageResponse) :
    (s.GetRandomImage.2 = .ok r →
        s.client.httpClient ("https://dog.ceo/api" ++ "/breeds/image/random") =
          .response 200 (.decoded ⟨"success", .str r.ImageUrl⟩)) ∧
      ((s.GetRandomBreedImage ⟨breed⟩).2 = .ok r →
        s.client.httpClient ("https://dog.ceo/api" ++ "/breed/" ++ breed ++ "/images/random") =
          .response 200 (.decoded ⟨"success", .str r.ImageUrl⟩)) ∧
      ((s.GetRandomSubBreedImage ⟨breed, subBreed⟩).2 = .ok r →
        s.client.httpClient
            ("https://dog.ceo/api" ++ "/breed/" ++ breed ++ "/" ++ subBreed ++ "/images/random") =
          .response 200 (.decoded ⟨"success", .str r.ImageUrl⟩)) := by
  refine ⟨?_, ?_, ?_⟩
  · intro h
    rw [Server_GetRandomImage_eq, Client_GetRandomImage_eq] at h
    exact image_of_doRequest s.client _ r _ h
  · intro h
    by_cases hb : breed = ""
    · subst hb
      simp [Server.GetRandomBreedImage] at h
    · rw [Server_GetRandomBreedImage_eq s ⟨breed⟩ hb, Client_GetRandomBreedImage_eq] at h
      exact image_of_doRequest s.client _ r _ h
  · intro h
    by_cases hb : breed = ""
    · subst hb
      simp [Server.GetRandomSubBreedImage] at h
    · by_cases hsb : subBreed = ""
      · subst hsb
        simp [Server.GetRandomSubBreedImage] at h
      · rw [Server_GetRandomSubBreedImage_eq s ⟨breed, subBreed⟩ hb hsb,
          Client_GetRandomSubBreedImage_eq] at h
        exact image_of_doRequest s.client _ r _ h

theorem image_url_is_upstream_message_witness :
    ((succeedWith (.str "https://x/y.jpg")).GetRandomBreedImage ⟨"husky"⟩).2 =
        .ok ⟨"https://x/y.jpg"⟩ ∧
      (succeedWith (.str "https://x/y.jpg")).client.httpClient
          ("https://dog.ceo/api" ++ "/breed/" ++ "husky" ++ "/images/random") =
        .response 200 (.decoded ⟨"success", .str "https://x/y.jpg"⟩) :=
  ⟨by decide,
    (image_url_is_upstream_message (succeedWith (.str "https://x/y.jpg")) "husky" "plott"
      ⟨"https://x/y.jpg"⟩).2.1 (by decide)⟩

end DogApi
